import Mathlib

set_option autoImplicit false

/-!
Verification development for the `cg3Dguru.user_data.core` module.

Python strings are embedded as lists of characters (`PyStr`), Maya nodes as
explicit records threaded through each operation, and calls that the Python
source aborts through `pm.error` or a raised exception as `Except` results.
-/
/-- Embedding of a Python string as its list of characters. -/
abbrev PyStr := List Char

/-- Errors raised during an operation: `pm.error` aborts, the Python runtime
errors `TypeError`, `ValueError` and `AttributeError`, the structured
attribute-conflict diagnostic raised by `BaseData._find_attr_conflicts`, and
the `VersionUpdateException` raised by `BaseData.update_version` carrying the
values the source interpolates into its message. -/
inductive PyErr where
  | pmError (msg : String)
  | typeError (msg : String)
  | valueError (msg : String)
  | attributeError (missing : String)
  | conflict (conflicts : List PyStr) (className : PyStr) (recordNames : List PyStr)
  | versionUpdate (dataName : PyStr) (oldVersion newVersion : List Nat)
deriving DecidableEq, Repr

/-- Decimal digit character of a value below ten, as produced by Python `str`
on a single digit. -/
def digitChar : Nat → Char
  | 0 => '0' | 1 => '1' | 2 => '2' | 3 => '3' | 4 => '4'
  | 5 => '5' | 6 => '6' | 7 => '7' | 8 => '8' | _ => '9'

/-- Numeric value of a decimal digit character; `none` on any other character
(Python `int` raises `ValueError` there). -/
def digitVal? (c : Char) : Option Nat :=
  if '0' ≤ c ∧ c ≤ '9' then some (c.toNat - '0'.toNat) else none

/-- Embedding of Python `str` on a non-negative integer: its decimal digits,
most significant first. -/
def natToStr (n : Nat) : PyStr :=
  if n < 10 then [digitChar n]
  else natToStr (n / 10) ++ [digitChar (n % 10)]
termination_by n
decreasing_by exact Nat.div_lt_self (by omega) (by omega)

/-- Accumulating parser behind `strToNat?`. -/
def strToNatAux : Nat → PyStr → Option Nat
  | acc, [] => some acc
  | acc, c :: rest =>
    match digitVal? c with
    | some d => strToNatAux (acc * 10 + d) rest
    | none => none

/-- Embedding of Python `int` on a string of decimal digits; `none` (a Python
`ValueError`) on the empty string or any non-digit character. -/
def strToNat? (s : PyStr) : Option Nat :=
  if s = [] then none else strToNatAux 0 s

/-- Embedding of Python `str.split(sep)` for a one-character separator: the
result is never empty, and splitting the empty string yields one empty field. -/
def pySplit (sep : Char) : PyStr → List PyStr
  | [] => [[]]
  | c :: rest =>
    if c = sep then [] :: pySplit sep rest
    else
      match pySplit sep rest with
      | [] => [[c]]
      | h :: t => (c :: h) :: t

/-- Embedding of Python `sep.join(parts)` for a one-character separator. -/
def pyJoin (sep : Char) : List PyStr → PyStr
  | [] => []
  | [s] => s
  | s :: rest => s ++ sep :: pyJoin sep rest

/-- One element of the `DataRecords` multi attribute on a node: its array
index, its string value, and its lock state. -/
structure RecordElem where
  idx : Nat
  value : PyStr
  locked : Bool
deriving DecidableEq, Repr

/-- Translation of `Record._get_version_string` (core.py line 237): join the
version components with dots. -/
def record_get_version_string (v : List Nat) : PyStr :=
  pyJoin '.' (v.map natToStr)

/-- Embedding of Python `tuple(map(int, parts))`: parse every part, failing
(a Python `ValueError`) if any part fails to parse. -/
def mapIntList : List PyStr → Option (List Nat)
  | [] => some []
  | s :: rest =>
    match strToNat? s, mapIntList rest with
    | some n, some l => some (n :: l)
    | _, _ => none

/-- Translation of the parse performed by `Record.__init__` (core.py lines
202-205): split the stored string on a colon — the tuple unpack fails unless
there are exactly two parts — then parse the dot-separated version numbers
into a tuple of integers. -/
def recordParse? (s : PyStr) : Option (PyStr × List Nat) :=
  match pySplit ':' s with
  | [n, vs] =>
    match mapIntList (pySplit '.' vs) with
    | some v => some (n, v)
    | none => none
  | _ => none

/-- Translation of the `Record.version` setter (core.py lines 220-227):
unlock, rewrite the value as the record name, a colon and the dotted version
string, and relock. -/
def record_set_version (e : RecordElem) (name : PyStr) (v : List Nat) : RecordElem :=
  { e with value := name ++ ':' :: record_get_version_string v, locked := true }

/-- Embedding of Python tuple comparison `<` on integer tuples, as used by
`record_version < current_version` in `BaseData.get_data` (core.py line 582). -/
def pyTupleLt : List Nat → List Nat → Bool
  | [], [] => false
  | [], _ :: _ => true
  | _ :: _, [] => false
  | a :: t1, b :: t2 => if a < b then true else if b < a then false else pyTupleLt t1 t2

/-- Translation of the record-index selection in `BaseData._add_data_to_records`
(core.py lines 335-346): index 0 when no indices are in use, otherwise the
first index below the last used index that is not in use, otherwise the last
used index plus one. -/
def select_record_index (indices : List Nat) : Nat :=
  match indices.getLast? with
  | none => 0
  | some last =>
    match (List.range last).find? (fun i => !(decide (i ∈ indices))) with
    | some i => i
    | none => last + 1

/-! Attribute descriptors: translation of the `Attr` and `Compound` classes
(core.py lines 50-196). Children are modelled as leaf descriptors — name and
attribute type — which is the shape `Compound._make_elements` produces. -/
/-- A leaf attribute descriptor: its name and its attributeType string. -/
structure Attr where
  name : String
  attr_type : String
deriving DecidableEq, Repr

/-- A compound attribute descriptor under construction: name, attributeType,
flag keywords, the target size looked up from `compound_types`, and the
current children list. -/
structure Compound where
  name : String
  attr_type : String
  flags : List String
  target_size : Nat
  children : List Attr
deriving DecidableEq, Repr

/-- Translation of `Compound.compound_types` (core.py lines 101-107): the
valid compound attribute types and how many children each auto-creates. -/
def compound_types : List (String × Nat) :=
  [("compound", 0), ("reflectance", 3), ("spectrum", 3), ("float2", 2), ("float3", 3),
   ("double2", 2), ("double3", 3), ("long2", 2), ("long3", 3), ("short2", 2), ("short3", 3)]

/-- Translation of `Compound.add_child` (core.py lines 157-163): `pm.error`
when the target size is non-zero and the child count before the append
already exceeds it, otherwise append the child. -/
def add_child (c : Compound) (child : Attr) : Except PyErr Compound :=
  if c.target_size ≠ 0 ∧ c.children.length > c.target_size then
    .error (.pmError "Compound instance has reach max allowed children")
  else
    .ok { c with children := c.children ++ [child] }

/-- Translation of `Compound.validate` (core.py lines 171-186): with target
size zero any positive child count is valid, otherwise the child count must
equal the target size; `pm.error` when invalid. -/
def validate (c : Compound) : Except PyErr Unit :=
  if (if c.target_size = 0 then c.children.length > 0
      else c.children.length = c.target_size) then
    .ok ()
  else
    .error (.pmError "does not have the required number of children")

/-- Suffix selection of `Compound._make_elements` (core.py lines 128-135):
R, G, B when a usedAsColor or uac flag is present or the type is spectrum or
reflectance, otherwise X, Y, Z. -/
def element_suffixes (attr_type : String) (flags : List String) : List String :=
  if "usedAsColor" ∈ flags ∨ "uac" ∈ flags ∨ attr_type = "spectrum" ∨ attr_type = "reflectance"
  then ["R", "G", "B"] else ["X", "Y", "Z"]

/-- Child element type selection of `Compound._make_elements` (core.py lines
137-144), keyed on the first character of the attribute type. -/
def element_type (attr_type : String) : String :=
  match attr_type.toList with
  | 'f' :: _ => "float"
  | 'l' :: _ => "long"
  | 's' :: _ => "short"
  | _ => "double"

/-- The children `Compound._make_elements` generates: one leaf per target
slot, named by the selected suffix, typed by the selected element type. -/
def generated_children (c : Compound) : List Attr :=
  (List.range c.target_size).map
    (fun i => ⟨c.name ++ (element_suffixes c.attr_type c.flags).getD i "",
      element_type c.attr_type⟩)

/-- Translation of `Compound._make_elements` (core.py lines 127-149): add
each generated child through `add_child`. -/
def make_elements (c : Compound) : Except PyErr Compound :=
  (generated_children c).foldlM add_child c

/-- Contents of the mutable default argument `children = []` of
`Compound.__init__` (core.py line 111): every construction that omits the
children argument binds the very same list object, so auto-generated children
accumulate in it across constructions. -/
abbrev SharedChildren := List Attr

/-- Translation of `Compound.__init__` (core.py lines 111-124) for a
construction that omits the children argument: the children list is the
shared default-argument list; with a fixed-arity type and make_elements
requested, a non-empty children list is rejected by `pm.error`, otherwise
auto-generation appends to the shared list. Returns the constructed object
together with the new contents of the shared default list. -/
def compound_init_default (shared : SharedChildren) (name attr_type : String)
    (flags : List String) (make_elems : Bool) :
    Except PyErr (Compound × SharedChildren) :=
  match compound_types.lookup attr_type with
  | none => .error (.pmError "is not a valid CompoundType")
  | some target =>
    let c : Compound :=
      { name := name, attr_type := attr_type, flags := flags,
        target_size := target, children := shared }
    if target ≠ 0 ∧ make_elems then
      if c.children ≠ [] then
        .error (.pmError "cant use MakeElements with Compound class, if you also supply children")
      else
        match make_elements c with
        | .ok c2 => .ok (c2, c2.children)
        | .error e => .error e
    else
      .ok (c, c.children)

/-- Names of the current children of a compound. -/
def child_names (c : Compound) : List String :=
  c.children.map Attr.name

/-- Attribute types of the current children of a compound. -/
def child_types (c : Compound) : List String :=
  c.children.map Attr.attr_type

/-- Child names produced by a default-children construction, `none` when the
construction aborts. -/
def default_child_names (shared : SharedChildren) (name attr_type : String)
    (flags : List String) : Option (List String) :=
  match compound_init_default shared name attr_type flags true with
  | .ok (c, _) => some (child_names c)
  | .error _ => none

/-- Child attribute types produced by a default-children construction. -/
def default_child_types (shared : SharedChildren) (name attr_type : String)
    (flags : List String) : Option (List String) :=
  match compound_init_default shared name attr_type flags true with
  | .ok (c, _) => some (child_types c)
  | .error _ => none

/-! Node model and the record bookkeeping of BaseData (core.py lines
241-635). A node is the list of its user attribute names plus the optional
DataRecords multi attribute; attribute handles are modelled by their names. -/
/-- The fixed records attribute name `_RECORDS_NAME` (core.py line 29). -/
def RECORDS_NAME : PyStr := "DataRecords".toList

/-- A Maya node as the module sees it: the names of the attributes on it
other than the records array, and the records multi attribute when present,
its elements kept in ascending index order as getArrayIndices returns them. -/
structure PyNode where
  attrs : List PyStr
  records : Option (List RecordElem)
deriving DecidableEq, Repr

/-- Embedding of `pm.hasAttr` on this node model. -/
def hasAttr (node : PyNode) (name : PyStr) : Bool :=
  decide (name ∈ node.attrs) || (decide (name = RECORDS_NAME) && node.records.isSome)

/-- A BaseData subclass as the module reads it: its Python class name, the
name returned by `get_data_name`, its class version tuple `_version`, the
flattened attribute-name list returned by `get_attribute_names`, and the keys
of its default creation flags. -/
structure DataClass where
  class_name : PyStr
  data_name : PyStr
  version : List Nat
  attribute_names : List PyStr
  flags : List PyStr
deriving DecidableEq, Repr

/-- A Python value as needed to evaluate the class attribute access
`cls.version` inside the classmethod `BaseData.get_version_string` (core.py
lines 299-301): `version` is defined as a property (lines 304-306), and a
property accessed through the class rather than through an instance evaluates
to the property descriptor object itself, not to the version tuple. -/
inductive PyVal where
  | tuple (v : List Nat)
  | propertyObject
deriving DecidableEq, Repr

/-- The value of `cls.version` as evaluated inside a classmethod: the
property descriptor object itself. -/
def cls_version_attribute : PyVal := .propertyObject

/-- Embedding of `'.'.join(map(str, x))`: joining iterates x, which raises
TypeError when x is not iterable, and a property object is not. -/
def join_map_str : PyVal → Except PyErr PyStr
  | .tuple v => .ok (pyJoin '.' (v.map natToStr))
  | .propertyObject => .error (.typeError "property object is not iterable")

/-- Translation of the classmethod `BaseData.get_version_string` (core.py
lines 299-301), which evaluates `'.'.join(map(str, cls.version))` where
`cls.version` is the property descriptor object. -/
def get_version_string : Except PyErr PyStr :=
  join_map_str cls_version_attribute

/-- Translation of `BaseData._get_record_by_name` (core.py lines 384-399):
scan the record elements in index order, skip elements whose stored string is
empty, split the value on a colon — raising ValueError unless there are
exactly two parts — and on the first name match construct the Record, whose
parse of the version numbers may itself raise ValueError. -/
def get_record_by_name (recs : List RecordElem) (data_name : PyStr) :
    Except PyErr (Option (RecordElem × PyStr × List Nat)) :=
  match recs with
  | [] => .ok none
  | e :: rest =>
    if e.value = [] then get_record_by_name rest data_name
    else
      match pySplit ':' e.value with
      | [nm, vs] =>
        if nm = data_name then
          match mapIntList (pySplit '.' vs) with
          | some v => .ok (some (e, nm, v))
          | none => .error (.valueError "invalid literal for int")
        else
          get_record_by_name rest data_name
      | _ => .error (.valueError "not enough values to unpack")

/-- Translation of `BaseData._get_records` (core.py lines 362-376): return
the records attribute when present; with force_add, create it first
(`_create_records`, lines 356-359) when missing; otherwise return nothing.
The possibly modified node is returned alongside. -/
def get_records_f (node : PyNode) (force_add : Bool) :
    PyNode × Option (List RecordElem) :=
  match node.records with
  | some recs => (node, some recs)
  | none =>
    if force_add then ({ node with records := some [] }, some [])
    else (node, none)

/-- The attribute names `BaseData._find_attr_conflicts` (core.py lines
413-419) checks on the node: the flattened attribute names — emptied when the
class flags carry multi or m — with the data name appended. -/
def conflict_names (cls : DataClass) : List PyStr :=
  (if "multi".toList ∈ cls.flags ∨ "m".toList ∈ cls.flags then []
   else cls.attribute_names) ++ [cls.data_name]

/-- The record names gathered by `BaseData._find_attr_conflicts` (core.py
lines 427-430): every element is parsed through `Record`, which raises
ValueError on an empty or malformed value. -/
def record_names_exc : List RecordElem → Except PyErr (List PyStr)
  | [] => .ok []
  | e :: rest =>
    match recordParse? e.value with
    | some (nm, _) =>
      match record_names_exc rest with
      | .ok l => .ok (nm :: l)
      | .error er => .error er
    | none => .error (.valueError "Record parse failed")

/-- Translation of `BaseData._find_attr_conflicts` (core.py lines 413-434):
collect the checked names already present on the node; when any exist,
gather every record name and abort with the conflict diagnostic listing the
conflicting names, the class name and the record names. -/
def find_attr_conflicts (cls : DataClass) (node : PyNode)
    (recs : List RecordElem) : Except PyErr Unit :=
  let conflicts := (conflict_names cls).filter (fun nm => hasAttr node nm)
  if conflicts = [] then .ok ()
  else
    match record_names_exc recs with
    | .ok rnames => .error (.conflict conflicts cls.class_name rnames)
    | .error er => .error er

/-- Translation of `BaseData._create_data` (core.py lines 544-552): create
the compound attribute named by the data name and, through `add_attr`, one
attribute per flattened schema name; the handle to the new compound is its
name. Descriptor arity validation inside `add_attr` is modelled as passing,
the class schema being well formed. -/
def create_data (cls : DataClass) (node : PyNode) : PyNode × PyStr :=
  ({ node with attrs := node.attrs ++ cls.data_name :: cls.attribute_names },
   cls.data_name)

/-- Translation of `BaseData._add_data_to_records` (core.py lines 332-353):
nothing when no records attribute is bound; otherwise select the index, then
format the record string from the data name and `get_version_string` — which
raises TypeError — and store and lock the new element. -/
def add_data_to_records (cls : DataClass) (recs? : Option (List RecordElem)) :
    Except PyErr (Option (List RecordElem)) :=
  match recs? with
  | none => .ok none
  | some recs =>
    let idx := select_record_index (recs.map RecordElem.idx)
    match get_version_string with
    | .ok vs => .ok (some (recs ++ [⟨idx, cls.data_name ++ ':' :: vs, true⟩]))
    | .error e => .error e

/-- Translation of `BaseData.get_data` (core.py lines 564-608), returning the
node as left behind by the call together with the outcome: the data handle,
`none` for absent data, or the raised error. `auto_update` is the value of
`pre_update_version` (core.py lines 490-495, the module AUTO_UPDATE flag by
default). In the stale-record branch with auto update, `update_version`
(line 586) first re-enters get_data on a fresh scratch node through
`create_node`, which raises the TypeError of `get_version_string` before any
copy; see `update_version` below. -/
def get_data (cls : DataClass) (auto_update : Bool) (node : PyNode)
    (force_add : Bool) : PyNode × Except PyErr (Option PyStr) :=
  match
    match node.records with
    | none => Except.ok none
    | some recs => get_record_by_name recs cls.data_name
  with
  | .error e => (node, .error e)
  | .ok record? =>
    let s1 :=
      if record?.isNone && force_add then get_records_f node true
      else (node, none)
    match record? with
    | some (_, _, record_version) =>
      if pyTupleLt record_version cls.version then
        if auto_update then
          (s1.1, .error (.typeError "property object is not iterable"))
        else
          (s1.1, .ok (some cls.data_name))
      else
        (s1.1, .ok (some cls.data_name))
    | none =>
      if force_add then
        match find_attr_conflicts cls s1.1 (s1.2.getD []) with
        | .error e => (s1.1, .error e)
        | .ok _ =>
          let s2 := create_data cls s1.1
          match add_data_to_records cls s2.1.records with
          | .error e => (s2.1, .error e)
          | .ok none => (s2.1, .ok (some s2.2))
          | .ok (some nr) => ({ s2.1 with records := some nr }, .ok (some s2.2))
      else
        (s1.1, .ok none)

/-- Translation of `BaseData.add_data` (core.py lines 612-613). -/
def add_data (cls : DataClass) (auto_update : Bool) (node : PyNode) :
    PyNode × Except PyErr (Option PyStr) :=
  get_data cls auto_update node true

/-! Version migration: translation of `BaseData.update_version` (core.py
lines 498-523) over a small scene holding the live node and the scratch
node. -/
/-- The scene during update_version: the live node carrying the stale data
block, and the scratch node when one currently exists. -/
structure Scene where
  live : PyNode
  temp : Option PyNode
deriving DecidableEq, Repr

/-- Translation of `BaseData.update_version` (core.py lines 498-523).
`copy_ok` stands for the outcome of the `pm.copyAttr` call of line 503,
guarded by try, that copies the flattened attribute values from the live node
to the scratch node. Line 500 first builds the scratch node through
`create_node` (lines 627-635), which creates a fresh node and populates it
with get_data force_add; an error raised there propagates, leaving the
scratch node in the scene. On a copy failure the scratch node is deleted and
VersionUpdateException is raised carrying the data name, the old version
number and the current class version (lines 504-509), the live node
untouched; only on a copy success are the data attributes deleted from the
live node (line 512), rebuilt from the current schema (line 515), the values
copied back and the scratch node deleted (lines 518-521). -/
def update_version (cls : DataClass) (copy_ok : Bool) (sc : Scene)
    (old_version : List Nat) : Scene × Except PyErr Bool :=
  let fresh : PyNode := ⟨[], none⟩
  match get_data cls false fresh true with
  | (temp1, .error e) => ({ sc with temp := some temp1 }, .error e)
  | (_, .ok _) =>
    if copy_ok then
      let keep : PyStr → Bool :=
        fun a => !(decide (a = cls.data_name ∨ a ∈ cls.attribute_names))
      let stripped : PyNode := { sc.live with attrs := sc.live.attrs.filter keep }
      let rebuilt := (create_data cls stripped).1
      ({ live := rebuilt, temp := none }, .ok true)
    else
      ({ sc with temp := none },
       .error (.versionUpdate cls.data_name old_version cls.version))

/-! Utils.find_attribute_conflicts: translation of core.py lines 663-696. -/
/-- A BaseData subclass as seen through Python attribute lookup: its class
name, the method names resolvable on it (its own and its inherited ones), and
the results of its snake_case get_default_flags and get_attribute_names. -/
structure SubclassM where
  class_name : String
  methods : List String
  default_flags : List String
  attribute_names : List String
deriving DecidableEq, Repr

/-- The names defined by the BaseData class body (core.py lines 241-635),
which every subclass inherits. -/
def baseDataMethods : List String :=
  ["attributes", "_version", "get_class_version", "set_class_version",
   "get_version_string", "version", "_clear_invalid_flags",
   "get_default_flags", "_add_data_to_records", "_create_records",
   "_get_records", "get_records", "_get_record_by_name", "get_record_by_name",
   "get_record", "_find_attr_conflicts", "add_attr", "_get_attribute_names",
   "get_attribute_names", "_init_class_attributes", "get_attributes",
   "pre_update_version", "update_version", "post_update_version",
   "get_data_name", "_create_data", "post_create", "get_data", "add_data",
   "delete_data", "create_node"]

/-- Record one attribute-name claim into the ordered name-to-classes map. -/
def add_claim (attrs : List (String × List String)) (an cn : String) :
    List (String × List String) :=
  match attrs with
  | [] => [(an, [cn])]
  | (k, cs) :: rest =>
    if k = an then (k, cs ++ [cn]) :: rest
    else (k, cs) :: add_claim rest an cn

/-- The per-subclass loop of `Utils.find_attribute_conflicts` (core.py lines
667-680): each iteration first calls `subclass.GetDefaultFlags()` and later
`subclass.GetAttributeNames()`; Python resolves these by attribute lookup on
the class, raising AttributeError when the name is not defined. Classes whose
default flags carry m or multi are skipped. -/
def collect_attrs : List SubclassM → List (String × List String) →
    Except PyErr (List (String × List String))
  | [], attrs => .ok attrs
  | c :: rest, attrs =>
    if "GetDefaultFlags" ∈ c.methods then
      if "m" ∈ c.default_flags ∨ "multi" ∈ c.default_flags then
        collect_attrs rest attrs
      else if "GetAttributeNames" ∈ c.methods then
        collect_attrs rest
          (c.attribute_names.foldl (fun acc an => add_claim acc an c.class_name) attrs)
      else .error (.attributeError "GetAttributeNames")
    else .error (.attributeError "GetDefaultFlags")

/-- Translation of `Utils.find_attribute_conflicts` (core.py lines 663-696):
collect every attribute-name claim, keep the names claimed by more than one
class, warn per colliding name and escalate to `pm.error` when requested. -/
def find_attribute_conflicts (classes : List SubclassM)
    (error_on_conflict : Bool) : Except PyErr (List (String × List String)) :=
  match collect_attrs classes [] with
  | .error e => .error e
  | .ok attrs =>
    let conflicts := attrs.filter (fun p => p.2.length > 1)
    if conflicts ≠ [] ∧ error_on_conflict then
      .error (.pmError "Found conflict between attribute names. See console for info.")
    else .ok conflicts

/-! Digit and parsing lemmas. -/
theorem digitVal?_digitChar : ∀ d < 10, digitVal? (digitChar d) = some d := by decide

theorem digitChar_ne : ∀ d < 10, digitChar d ≠ ':' ∧ digitChar d ≠ '.' := by decide

theorem natToStr_ne_nil (n : Nat) : natToStr n ≠ [] := by
  rw [natToStr]
  split <;> simp

theorem natToStr_mem (n : Nat) : ∀ c ∈ natToStr n, ∃ d, d < 10 ∧ c = digitChar d := by
  induction n using Nat.strong_induction_on with
  | _ n ih =>
    rw [natToStr]
    split
    · rename_i h
      intro c hc
      rw [List.mem_singleton] at hc
      exact ⟨n, h, hc⟩
    · rename_i h
      intro c hc
      rcases List.mem_append.1 hc with hm | hm
      · exact ih (n / 10) (Nat.div_lt_self (by omega) (by omega)) c hm
      · rw [List.mem_singleton] at hm
        exact ⟨n % 10, Nat.mod_lt _ (by omega), hm⟩

theorem strToNatAux_append (acc : Nat) (s t : PyStr) :
    strToNatAux acc (s ++ t) =
      match strToNatAux acc s with
      | some a => strToNatAux a t
      | none => none := by
  induction s generalizing acc with
  | nil => rfl
  | cons c rest ih =>
    rw [List.cons_append]
    cases h : digitVal? c <;> simp [strToNatAux, h, ih]

theorem strToNatAux_natToStr (n : Nat) :
    ∀ acc, strToNatAux acc (natToStr n) = some (acc * 10 ^ (natToStr n).length + n) := by
  induction n using Nat.strong_induction_on with
  | _ n ih =>
    intro acc
    rw [natToStr]
    split
    · rename_i h
      simp [strToNatAux, digitVal?_digitChar n h]
    · rename_i h
      rw [strToNatAux_append, ih (n / 10) (Nat.div_lt_self (by omega) (by omega)) acc]
      have hmod : digitVal? (digitChar (n % 10)) = some (n % 10) :=
        digitVal?_digitChar _ (Nat.mod_lt _ (by omega))
      simp only [strToNatAux, hmod, List.length_append, List.length_singleton]
      have hpow : 10 ^ ((natToStr (n / 10)).length + 1) = 10 ^ (natToStr (n / 10)).length * 10 := by
        rw [pow_succ]
      rw [hpow]
      have hdm : 10 * (n / 10) + n % 10 = n := Nat.div_add_mod n 10
      have : (acc * 10 ^ (natToStr (n / 10)).length + n / 10) * 10 + n % 10 =
          acc * (10 ^ (natToStr (n / 10)).length * 10) + n := by
        generalize 10 ^ (natToStr (n / 10)).length = P
        ring_nf
        omega
      rw [this]

theorem strToNat?_natToStr (n : Nat) : strToNat? (natToStr n) = some n := by
  rw [strToNat?, if_neg (natToStr_ne_nil n), strToNatAux_natToStr]
  simp

/-! Split and join lemmas. -/
theorem pySplit_ne_nil (sep : Char) (s : PyStr) : pySplit sep s ≠ [] := by
  induction s with
  | nil => simp [pySplit]
  | cons c rest ih =>
    rw [pySplit]
    split
    · simp
    · cases h : pySplit sep rest with
      | nil => simp
      | cons h t => simp

theorem pySplit_no_sep {sep : Char} {s : PyStr} (h : ∀ c ∈ s, c ≠ sep) :
    pySplit sep s = [s] := by
  induction s with
  | nil => rfl
  | cons c rest ih =>
    rw [pySplit, if_neg (h c (List.mem_cons_self c rest))]
    rw [ih fun x hx => h x (List.mem_cons_of_mem c hx)]

theorem pySplit_append {sep : Char} {a : PyStr} (b : PyStr) (h : ∀ c ∈ a, c ≠ sep) :
    pySplit sep (a ++ sep :: b) = a :: pySplit sep b := by
  induction a with
  | nil => simp [pySplit]
  | cons c rest ih =>
    rw [List.cons_append, pySplit, if_neg (h c (List.mem_cons_self c rest))]
    rw [ih fun x hx => h x (List.mem_cons_of_mem c hx)]

theorem pyJoin_cons_cons (sep : Char) (p q : PyStr) (t : List PyStr) :
    pyJoin sep (p :: q :: t) = p ++ sep :: pyJoin sep (q :: t) := rfl

theorem mem_pyJoin {sep : Char} {parts : List PyStr} {c : Char} (h : c ∈ pyJoin sep parts) :
    c = sep ∨ ∃ p ∈ parts, c ∈ p := by
  induction parts with
  | nil => simp [pyJoin] at h
  | cons p rest ih =>
    cases rest with
    | nil =>
      simp only [pyJoin] at h
      exact Or.inr ⟨p, List.mem_cons_self _ _, h⟩
    | cons q t =>
      rw [pyJoin_cons_cons] at h
      rcases List.mem_append.1 h with hm | hm
      · exact Or.inr ⟨p, List.mem_cons_self _ _, hm⟩
      · rcases List.mem_cons.1 hm with hm | hm
        · exact Or.inl hm
        · rcases ih hm with hs | ⟨q', hq', hc⟩
          · exact Or.inl hs
          · exact Or.inr ⟨q', List.mem_cons_of_mem _ hq', hc⟩

theorem pySplit_pyJoin {sep : Char} {parts : List PyStr} (hne : parts ≠ [])
    (h : ∀ p ∈ parts, ∀ c ∈ p, c ≠ sep) :
    pySplit sep (pyJoin sep parts) = parts := by
  induction parts with
  | nil => exact absurd rfl hne
  | cons p rest ih =>
    cases rest with
    | nil =>
      rw [pyJoin]
      exact pySplit_no_sep (h p (List.mem_cons_self _ _))
    | cons q t =>
      rw [pyJoin_cons_cons, pySplit_append _ (h p (List.mem_cons_self _ _))]
      rw [ih (by simp) fun r hr c hc => h r (List.mem_cons_of_mem _ hr) c hc]

theorem mapIntList_natToStr (v : List Nat) :
    mapIntList (v.map natToStr) = some v := by
  induction v with
  | nil => rfl
  | cons x rest ih => simp [mapIntList, strToNat?_natToStr, ih]

/-- Characters of the dotted version string are digits or dots, hence never
a colon. -/
theorem record_get_version_string_no_colon (v : List Nat) :
    ∀ c ∈ record_get_version_string v, c ≠ ':' := by
  intro c hc
  rcases mem_pyJoin hc with h | ⟨p, hp, hcp⟩
  · rw [h]; decide
  · rcases List.mem_map.1 hp with ⟨n, _, rfl⟩
    rcases natToStr_mem n c hcp with ⟨d, hd, rfl⟩
    exact (digitChar_ne d hd).1

/-! Lemmas about `List.find?` over `List.range`, used by the index-allocation
proof. -/
theorem find?_append_spec {α : Type} (p : α → Bool) (l1 l2 : List α) :
    (l1 ++ l2).find? p =
      match l1.find? p with
      | some a => some a
      | none => l2.find? p := by
  induction l1 with
  | nil => rfl
  | cons a t ih =>
    by_cases h : p a
    · simp [List.find?, h]
    · simp only [List.cons_append, List.find?, h]
      simpa [h] using ih

theorem find?_range_spec (p : Nat → Bool) (n : Nat) :
    ((List.range n).find? p = none ∧ ∀ i < n, p i = false) ∨
      (∃ i, (List.range n).find? p = some i ∧ i < n ∧ p i = true ∧ ∀ j < i, p j = false) := by
  induction n with
  | zero => exact Or.inl ⟨rfl, by omega⟩
  | succ n ih =>
    rw [List.range_succ]
    rcases ih with ⟨hf, hall⟩ | ⟨i, hf, hi, hpi, hmin⟩
    · rw [find?_append_spec, hf]
      by_cases hp : p n
      · refine Or.inr ⟨n, ?_, by omega, hp, hall⟩
        simp [List.find?, hp]
      · refine Or.inl ⟨?_, ?_⟩
        · simp [List.find?, hp]
        · intro i hi
          rcases Nat.lt_succ_iff_lt_or_eq.1 hi with h | h
          · exact hall i h
          · subst h; simpa using hp
    · refine Or.inr ⟨i, ?_, by omega, hpi, hmin⟩
      rw [find?_append_spec, hf]

theorem sorted_getLast_le {l : List Nat} (hs : List.Sorted (· < ·) l) :
    ∀ {m}, l.getLast? = some m → ∀ x ∈ l, x ≤ m := by
  induction l with
  | nil => intro m h; simp at h
  | cons a rest ih =>
    intro m h x hx
    cases rest with
    | nil =>
      simp at h hx
      omega
    | cons b t =>
      rw [List.getLast?_cons_cons] at h
      have hrest := ih (List.Sorted.of_cons hs) h
      rcases List.mem_cons.1 hx with rfl | hx
      · have hab : x < b := (List.sorted_cons.1 hs).1 b (List.mem_cons_self _ _)
        have hbm : b ≤ m := hrest b (List.mem_cons_self _ _)
        omega
      · exact hrest x hx

/-! Claim C6: record version round-trip and lexicographic comparison. -/
/-- C6: for every version tuple, encoding it through the `Record.version`
setter (rewrite as name, colon and dotted version, relock) and then decoding
the stored string as `Record.__init__` does reproduces exactly the same tuple;
and the staleness comparison used by `get_data` (Python tuple `<`) orders
versions lexicographically as integer tuples. -/
theorem record_roundtrip_and_lex_order :
    (∀ (e : RecordElem) (name : PyStr) (v : List Nat),
        (∀ c ∈ name, c ≠ ':') → v ≠ [] →
        recordParse? (record_set_version e name v).value = some (name, v))
    ∧ (∀ a b : List Nat, pyTupleLt a b = true ↔ List.Lex (· < ·) a b) := by
  constructor
  · intro e name v hname hv
    have hvs : ∀ c ∈ record_get_version_string v, c ≠ ':' :=
      record_get_version_string_no_colon v
    have hsplit : pySplit ':' (name ++ ':' :: record_get_version_string v)
        = name :: pySplit ':' (record_get_version_string v) :=
      pySplit_append _ hname
    rw [record_set_version]
    simp only
    rw [recordParse?, hsplit, pySplit_no_sep hvs]
    have hparts : pySplit '.' (record_get_version_string v) = v.map natToStr := by
      rw [record_get_version_string]
      refine pySplit_pyJoin (by simpa using hv) ?_
      intro p hp c hc
      rcases List.mem_map.1 hp with ⟨n, _, rfl⟩
      rcases natToStr_mem n c hc with ⟨d, hd, rfl⟩
      exact (digitChar_ne d hd).2
    change (match mapIntList (pySplit '.' (record_get_version_string v)) with
      | some w => some (name, w)
      | none => none) = some (name, v)
    rw [hparts, mapIntList_natToStr]
  · intro a
    induction a with
    | nil =>
      intro b
      cases b with
      | nil =>
        simp only [pyTupleLt]
        constructor
        · intro h; cases h
        · intro h; cases h
      | cons y t2 =>
        simp only [pyTupleLt]
        exact ⟨fun _ => List.Lex.nil, fun _ => by trivial⟩
    | cons x t1 ih =>
      intro b
      cases b with
      | nil =>
        simp only [pyTupleLt]
        constructor
        · intro h; cases h
        · intro h; cases h
      | cons y t2 =>
        simp only [pyTupleLt]
        by_cases hxy : x < y
        · simp only [if_pos hxy]
          exact ⟨fun _ => List.Lex.rel hxy, fun _ => by trivial⟩
        · simp only [if_neg hxy]
          by_cases hyx : y < x
          · simp only [if_pos hyx]
            constructor
            · intro h; cases h
            · intro h
              cases h with
              | rel h => omega
              | cons h => omega
          · simp only [if_neg hyx]
            have hxyeq : x = y := by omega
            subst hxyeq
            rw [ih t2]
            constructor
            · exact fun h => List.Lex.cons h
            · intro h
              cases h with
              | rel h => omega
              | cons h => exact h

/-- Witness for C6: round-trip of the record string of a class named MyData at
version 1.2.0, and the staleness comparison 0.9.0 against 1.0.0. -/
theorem record_roundtrip_and_lex_order_witness :
    recordParse? (record_set_version ⟨0, [], false⟩ "MyData".toList [1, 2, 0]).value
        = some ("MyData".toList, [1, 2, 0])
    ∧ pyTupleLt [0, 9, 0] [1, 0, 0] = true :=
  ⟨record_roundtrip_and_lex_order.1 ⟨0, [], false⟩ "MyData".toList [1, 2, 0]
      (by decide) (by decide),
   (record_roundtrip_and_lex_order.2 [0, 9, 0] [1, 0, 0]).mpr (List.Lex.rel (by decide))⟩

/-! Claim C5: record-index allocation policy. -/
/-- C5: with the used indices sorted ascending (the order Maya's
getArrayIndices returns), the index selected for a new record is 0 when no
index is used; otherwise the last used index is the maximum, the selected
index is the smallest unused index below the maximum when a hole exists, and
it is the maximum plus one when no hole exists. -/
theorem select_record_index_spec (l : List Nat) (hs : List.Sorted (· < ·) l) :
    (l = [] → select_record_index l = 0)
    ∧ ∀ m, l.getLast? = some m →
        (∀ x ∈ l, x ≤ m)
        ∧ ((∃ i, i < m ∧ i ∉ l) →
            select_record_index l ∉ l ∧ select_record_index l < m ∧
              ∀ j < select_record_index l, j ∈ l)
        ∧ ((∀ i < m, i ∈ l) → select_record_index l = m + 1) := by
  constructor
  · intro h; subst h; rfl
  · intro m hm
    refine ⟨sorted_getLast_le hs hm, ?_⟩
    have hcont : ∀ i : Nat, (!(decide (i ∈ l))) = false ↔ i ∈ l := by
      intro i
      simp
    rcases find?_range_spec (fun i => !(decide (i ∈ l))) m with ⟨hf, hall⟩ | ⟨i, hf, him, hpi, hmin⟩
    · constructor
      · rintro ⟨i, him, hnot⟩
        exact absurd ((hcont i).1 (hall i him)) hnot
      · intro _
        simp only [select_record_index, hm, hf]
    · have hsel : select_record_index l = i := by
        simp only [select_record_index, hm, hf]
      have hnotmem : i ∉ l := by
        simpa using hpi
      constructor
      · intro _
        refine ⟨hsel ▸ hnotmem, hsel ▸ him, ?_⟩
        intro j hj
        rw [hsel] at hj
        exact (hcont j).1 (hmin j hj)
      · intro hfull
        exact absurd (hfull i him) hnotmem

/-- Witness for C5 at the examples of the claim: inserting into the empty
index set picks 0, into 0,2 picks the hole 1, and into 0,1,2 picks 3. -/
theorem select_record_index_spec_witness :
    select_record_index [] = 0 ∧ select_record_index [0, 2] = 1 ∧
      select_record_index [0, 1, 2] = 3 ∧
      (select_record_index [0, 2] ∉ [0, 2] ∧ select_record_index [0, 2] < 2 ∧
        ∀ j < select_record_index [0, 2], j ∈ [0, 2]) :=
  ⟨(select_record_index_spec [] (by simp)).1 rfl, by decide, by decide,
   (((select_record_index_spec [0, 2] (by decide)).2 2 (by decide)).2).1
     ⟨1, by decide, by decide⟩⟩

/-! Lemmas about adding children. -/
theorem except_ok_bind {α β γ : Type} (a : α) (f : α → Except γ β) :
    (Except.ok a >>= f) = f a := rfl

theorem foldlM_add_child_ok (toAdd : List Attr) :
    ∀ (c : Compound), c.children.length + toAdd.length ≤ c.target_size + 1 →
      toAdd.foldlM add_child c = .ok { c with children := c.children ++ toAdd } := by
  induction toAdd with
  | nil =>
    intro c _
    rw [List.foldlM_nil, List.append_nil]
    rfl
  | cons a t ih =>
    intro c h
    rw [List.foldlM_cons]
    have hnc : ¬(c.target_size ≠ 0 ∧ c.children.length > c.target_size) := by
      simp at h ⊢
      omega
    rw [add_child, if_neg hnc, except_ok_bind]
    have hlen : ({ c with children := c.children ++ [a] } : Compound).children.length + t.length
        ≤ ({ c with children := c.children ++ [a] } : Compound).target_size + 1 := by
      simp at h ⊢
      omega
    rw [ih { c with children := c.children ++ [a] } hlen]
    simp

theorem make_elements_ok (c : Compound) (h : c.children = []) :
    make_elements c = .ok { c with children := generated_children c } := by
  have hlen : c.children.length + (generated_children c).length ≤ c.target_size + 1 := by
    rw [h, generated_children]
    simp
  have := foldlM_add_child_ok (generated_children c) c hlen
  rw [make_elements, this, h]
  simp

/-- Computation of a default-children construction from the empty shared
list: the lookup succeeds, the shared list is empty, so auto-generation runs
and fills the object and the shared list with the generated children. -/
theorem compound_init_default_nil (name attr_type : String) (flags : List String)
    (n : Nat) (ht : compound_types.lookup attr_type = some n) (hn : n ≠ 0) :
    compound_init_default [] name attr_type flags true =
      .ok ({ name := name, attr_type := attr_type, flags := flags, target_size := n,
              children := generated_children ⟨name, attr_type, flags, n, []⟩ },
           generated_children ⟨name, attr_type, flags, n, []⟩) := by
  rw [compound_init_default, ht]
  simp only [hn, ne_eq, not_false_eq_true, and_true, if_true, ite_not]
  rw [make_elements_ok _ rfl]

/-! Claim C7: validate against the fixed arities of compound_types. -/
/-- C7: for a compound whose attribute type has a fixed arity N greater than
zero in compound_types, validate succeeds exactly when the child count equals
N; for the unbounded compound type, whose target size is zero, validate
succeeds exactly when at least one child exists. -/
theorem validate_arity (name attr_type : String) (flags : List String)
    (target : Nat) (children : List Attr)
    (ht : compound_types.lookup attr_type = some target) :
    (target ≠ 0 →
      (validate ⟨name, attr_type, flags, target, children⟩ = .ok ()
        ↔ children.length = target))
    ∧ (target = 0 →
      (validate ⟨name, attr_type, flags, target, children⟩ = .ok ()
        ↔ children.length > 0)) := by
  constructor
  · intro h0
    constructor
    · intro hv
      by_contra hne
      simp [validate, h0, hne] at hv
    · intro hl
      simp [validate, h0, hl]
  · intro h0
    subst h0
    constructor
    · intro hv
      by_contra hne
      simp [validate, hne] at hv
    · intro hl
      simp [validate, hl]

/-- Witness for C7 at the float3 type of arity 3: three children validate,
one child does not. -/
theorem validate_arity_witness :
    validate ⟨"space", "float3", [], 3,
        [⟨"spaceX", "float"⟩, ⟨"spaceY", "float"⟩, ⟨"spaceZ", "float"⟩]⟩ = .ok ()
    ∧ validate ⟨"space", "float3", [], 3, [⟨"spaceX", "float"⟩]⟩ ≠ .ok () :=
  ⟨((validate_arity "space" "float3" [] 3
        [⟨"spaceX", "float"⟩, ⟨"spaceY", "float"⟩, ⟨"spaceZ", "float"⟩] rfl).1
      (by decide)).mpr (by decide),
   fun h => absurd (((validate_arity "space" "float3" [] 3
        [⟨"spaceX", "float"⟩] rfl).1 (by decide)).mp h) (by decide)⟩

/-! Claim C8: auto-generated child names. -/
/-- C8 counterexample: a 3-component float type constructed with the
usedAsColor flag auto-generates children R, G, B — not X, Y, Z as the claim
states for every 3-component float type — and a 2-component type flagged as
color generates only R and G, not R, G, B as the claim states for every
color-flagged type. -/
theorem make_elements_color_flag_counterexample :
    default_child_names [] "c" "float3" ["usedAsColor"] = some ["cR", "cG", "cB"]
    ∧ some ["cR", "cG", "cB"] ≠ some ["cX", "cY", "cZ"]
    ∧ default_child_names [] "c" "float2" ["uac"] = some ["cR", "cG"]
    ∧ some ["cR", "cG"] ≠ some ["cR", "cG", "cB"] := by
  refine ⟨by decide, by decide, by decide, by decide⟩

/-- C8 as amended: a 3-component float type without a color flag
auto-generates exactly the children nameX, nameY, nameZ of element type
float; any 3-component type that carries the usedAsColor or uac flag, or is
spectrum or reflectance, auto-generates exactly nameR, nameG, nameB; and
those six types are exactly the arity-3 entries used. -/
theorem make_elements_suffixes (name : String) (flags : List String) :
    ("usedAsColor" ∉ flags → "uac" ∉ flags →
      default_child_names [] name "float3" flags
          = some [name ++ "X", name ++ "Y", name ++ "Z"]
      ∧ default_child_types [] name "float3" flags
          = some ["float", "float", "float"])
    ∧ (∀ attr_type ∈ (["reflectance", "spectrum", "float3", "double3",
          "long3", "short3"] : List String),
        ("usedAsColor" ∈ flags ∨ "uac" ∈ flags ∨ attr_type = "spectrum"
            ∨ attr_type = "reflectance") →
        default_child_names [] name attr_type flags
          = some [name ++ "R", name ++ "G", name ++ "B"])
    ∧ (∀ t ∈ (["reflectance", "spectrum", "float3", "double3",
          "long3", "short3"] : List String),
        compound_types.lookup t = some 3) := by
  have hnames : ∀ (attr_type : String) (n : Nat),
      compound_types.lookup attr_type = some n → n ≠ 0 →
      default_child_names [] name attr_type flags =
        some ((List.range n).map
          (fun i => name ++ (element_suffixes attr_type flags).getD i "")) := by
    intro attr_type n ht hn
    rw [default_child_names, compound_init_default_nil name attr_type flags n ht hn]
    simp [child_names, generated_children, List.map_map]
  have htypes : ∀ (attr_type : String) (n : Nat),
      compound_types.lookup attr_type = some n → n ≠ 0 →
      default_child_types [] name attr_type flags =
        some ((List.range n).map (fun _ => element_type attr_type)) := by
    intro attr_type n ht hn
    rw [default_child_types, compound_init_default_nil name attr_type flags n ht hn]
    simp [child_types, generated_children, List.map_map, Function.comp_def,
      List.map_const', List.length_range]
  refine ⟨?_, ?_, by decide⟩
  · intro h1 h2
    have hs : element_suffixes "float3" flags = ["X", "Y", "Z"] := by
      rw [element_suffixes, if_neg]
      push_neg
      exact ⟨h1, h2, by decide, by decide⟩
    constructor
    · rw [hnames "float3" 3 (by decide) (by decide), hs]
      rfl
    · rw [htypes "float3" 3 (by decide) (by decide)]
      rfl
  · intro attr_type hmem hcolor
    have ht : compound_types.lookup attr_type = some 3 := by
      fin_cases hmem <;> decide
    have hs : element_suffixes attr_type flags = ["R", "G", "B"] := by
      rw [element_suffixes, if_pos hcolor]
    rw [hnames attr_type 3 ht (by decide), hs]
    rfl

/-- Witness for the amended C8 at a flagless float3 and at spectrum. -/
theorem make_elements_suffixes_witness :
    default_child_names [] "c" "float3" [] = some ["cX", "cY", "cZ"]
    ∧ default_child_types [] "c" "float3" [] = some ["float", "float", "float"]
    ∧ default_child_names [] "c" "spectrum" [] = some ["cR", "cG", "cB"] :=
  ⟨((make_elements_suffixes "c" []).1 (by decide) (by decide)).1,
   ((make_elements_suffixes "c" []).1 (by decide) (by decide)).2,
   (make_elements_suffixes "c" []).2.1 "spectrum" (by decide)
     (Or.inr (Or.inr (Or.inl rfl)))⟩

/-! Claim C9: the shared mutable default children list. -/
/-- C9: the children list of a Compound constructed without an explicit
children argument is the shared default-argument list, so after one
fixed-arity construction without explicit children has filled that shared
list, every further fixed-arity construction without explicit children finds
a non-empty children list and aborts with the mutually-exclusive-children
error. -/
theorem shared_default_children_mutex (t1 t2 name1 name2 : String)
    (flags1 flags2 : List String) (n1 n2 : Nat)
    (h1 : compound_types.lookup t1 = some n1) (hn1 : n1 ≠ 0)
    (h2 : compound_types.lookup t2 = some n2) (hn2 : n2 ≠ 0) :
    ∃ c1 : Compound,
      compound_init_default [] name1 t1 flags1 true = .ok (c1, c1.children)
      ∧ c1.children.length = n1
      ∧ compound_init_default c1.children name2 t2 flags2 true
          = .error (.pmError
              "cant use MakeElements with Compound class, if you also supply children") := by
  refine ⟨⟨name1, t1, flags1, n1, generated_children ⟨name1, t1, flags1, n1, []⟩⟩, ?_, ?_, ?_⟩
  · rw [compound_init_default_nil name1 t1 flags1 n1 h1 hn1]
  · simp [generated_children]
  · have hne : generated_children ⟨name1, t1, flags1, n1, []⟩ ≠ [] := by
      have : (generated_children ⟨name1, t1, flags1, n1, []⟩).length = n1 := by
        simp [generated_children]
      intro hnil
      rw [hnil] at this
      simp at this
      omega
    rw [compound_init_default, h2]
    simp only [hn2, ne_eq, not_false_eq_true, and_true, if_true]
    rw [if_pos hne]

/-- Witness for C9: a float3 built with default children fills the shared
list with three children, after which building a double3 with default
children aborts. -/
theorem shared_default_children_mutex_witness :
    ∃ c1 : Compound,
      compound_init_default [] "a" "float3" [] true = .ok (c1, c1.children)
      ∧ c1.children.length = 3
      ∧ compound_init_default c1.children "b" "double3" [] true
          = .error (.pmError
              "cant use MakeElements with Compound class, if you also supply children") :=
  shared_default_children_mutex "float3" "double3" "a" "b" [] [] 3 3
    (by decide) (by decide) (by decide) (by decide)

/-! Claim C10: the off-by-one guard of add_child. -/
/-- C10: add_child raises the maximum-children error exactly when the child
count before the append already exceeds the target size; hence on a
fixed-arity compound with no children, a run of target-size-plus-one adds all
succeed, and only the add after that fails. -/
theorem add_child_overflow (c : Compound) (toAdd : List Attr)
    (h0 : c.target_size ≠ 0) (hc : c.children = [])
    (hlen : toAdd.length = c.target_size + 1) :
    toAdd.foldlM add_child c = .ok { c with children := toAdd }
    ∧ (∀ a : Attr, add_child { c with children := toAdd } a
        = .error (.pmError "Compound instance has reach max allowed children"))
    ∧ (∀ (d : Compound) (a : Attr),
        add_child d a
            = .error (.pmError "Compound instance has reach max allowed children")
          ↔ d.target_size ≠ 0 ∧ d.children.length > d.target_size) := by
  refine ⟨?_, ?_, ?_⟩
  · have hfold := foldlM_add_child_ok toAdd c (by rw [hc, hlen]; simp)
    rw [hc] at hfold
    simpa using hfold
  · intro a
    rw [add_child, if_pos]
    constructor
    · exact h0
    · simp [hlen]
  · intro d a
    constructor
    · intro h
      by_contra hn
      rw [add_child, if_neg hn] at h
      exact Except.noConfusion h
    · intro hcond
      rw [add_child, if_pos hcond]

/-- Witness for C10 on an arity-3 float3 compound: four adds succeed, the
fifth errors; evaluated through the theorem at a concrete child list. -/
theorem add_child_overflow_witness :
    ([⟨"a", "float"⟩, ⟨"b", "float"⟩, ⟨"c", "float"⟩, ⟨"d", "float"⟩] :
        List Attr).foldlM add_child ⟨"k", "float3", [], 3, []⟩
      = .ok ⟨"k", "float3", [], 3,
          [⟨"a", "float"⟩, ⟨"b", "float"⟩, ⟨"c", "float"⟩, ⟨"d", "float"⟩]⟩
    ∧ add_child ⟨"k", "float3", [], 3,
          [⟨"a", "float"⟩, ⟨"b", "float"⟩, ⟨"c", "float"⟩, ⟨"d", "float"⟩]⟩
        ⟨"e", "float"⟩
      = .error (.pmError "Compound instance has reach max allowed children") :=
  ⟨(add_child_overflow ⟨"k", "float3", [], 3, []⟩
      [⟨"a", "float"⟩, ⟨"b", "float"⟩, ⟨"c", "float"⟩, ⟨"d", "float"⟩]
      (by decide) rfl (by decide)).1,
   (add_child_overflow ⟨"k", "float3", [], 3, []⟩
      [⟨"a", "float"⟩, ⟨"b", "float"⟩, ⟨"c", "float"⟩, ⟨"d", "float"⟩]
      (by decide) rfl (by decide)).2.1 ⟨"e", "float"⟩⟩

/-! Lemmas about record parsing and scanning. -/
theorem recordParse?_some {s nm : PyStr} {v : List Nat}
    (h : recordParse? s = some (nm, v)) :
    s ≠ [] ∧ ∃ vs, pySplit ':' s = [nm, vs]
      ∧ mapIntList (pySplit '.' vs) = some v := by
  constructor
  · intro hs
    subst hs
    simp [recordParse?, pySplit] at h
  · rw [recordParse?] at h
    rcases hsp : pySplit ':' s with _ | ⟨a, _ | ⟨b, _ | ⟨c, tl⟩⟩⟩ <;> rw [hsp] at h
    · exact absurd h (by simp)
    · exact absurd h (by simp)
    · have h2 : (match mapIntList (pySplit '.' b) with
          | some w => some (a, w)
          | none => (none : Option (PyStr × List Nat))) = some (nm, v) := h
      cases hm : mapIntList (pySplit '.' b) with
      | none => rw [hm] at h2; exact absurd h2 (by simp)
      | some v' =>
        rw [hm] at h2
        simp only [Option.some.injEq, Prod.mk.injEq] at h2
        refine ⟨b, ?_, ?_⟩
        · rw [h2.1]
        · rw [hm, h2.2]
    · exact absurd h (by simp)

theorem get_record_by_name_none {recs : List RecordElem} {dn : PyStr}
    (h : ∀ e ∈ recs, ∃ nm v, recordParse? e.value = some (nm, v) ∧ nm ≠ dn) :
    get_record_by_name recs dn = .ok none := by
  induction recs with
  | nil => rfl
  | cons e rest ih =>
    rcases h e (List.mem_cons_self _ _) with ⟨nm, v, hp, hne⟩
    rcases recordParse?_some hp with ⟨hval, vs, hsp, _⟩
    rw [get_record_by_name, if_neg hval, hsp]
    simp only [if_neg hne]
    exact ih fun x hx => h x (List.mem_cons_of_mem _ hx)

theorem record_names_exc_ok {recs : List RecordElem}
    (h : ∀ e ∈ recs, ∃ nm v, recordParse? e.value = some (nm, v)) :
    ∃ rnames, record_names_exc recs = .ok rnames
      ∧ rnames.length = recs.length := by
  induction recs with
  | nil => exact ⟨[], rfl, rfl⟩
  | cons e rest ih =>
    rcases h e (List.mem_cons_self _ _) with ⟨nm, v, hp⟩
    rcases ih (fun x hx => h x (List.mem_cons_of_mem _ hx)) with ⟨rn, hrn, hlen⟩
    refine ⟨nm :: rn, ?_, by simp [hlen]⟩
    rw [record_names_exc, hp, hrn]

theorem find_attr_conflicts_error (cls : DataClass) (node : PyNode)
    (recs : List RecordElem) (rnames : List PyStr)
    (hne : (conflict_names cls).filter (fun nm => hasAttr node nm) ≠ [])
    (hrn : record_names_exc recs = .ok rnames) :
    find_attr_conflicts cls node recs =
      .error (.conflict ((conflict_names cls).filter (fun nm => hasAttr node nm))
        cls.class_name rnames) := by
  rw [find_attr_conflicts]
  simp only [if_neg hne, hrn]

/-! Claim C2: conflict detection aborts before any attribute is created. -/
/-- C2: on a node already carrying a records array for a different data block
(all its record elements parse and none records this class), when any of this
class's checked names — the flattened attribute names plus the data name — is
already present on the node, get_data with force_add aborts with the conflict
diagnostic listing the colliding names, the class name and the existing
record names, and the node is returned exactly unchanged: no attribute and no
record was created. -/
theorem get_data_conflict_aborts (cls : DataClass) (auto : Bool)
    (node : PyNode) (recs : List RecordElem)
    (hrec : node.records = some recs)
    (hparse : ∀ e ∈ recs, ∃ nm v, recordParse? e.value = some (nm, v)
      ∧ nm ≠ cls.data_name)
    (hconf : ∃ nm ∈ conflict_names cls, hasAttr node nm) :
    ∃ rnames,
      get_data cls auto node true =
        (node, .error (.conflict
          ((conflict_names cls).filter (fun nm => hasAttr node nm))
          cls.class_name rnames))
      ∧ ((conflict_names cls).filter (fun nm => hasAttr node nm)) ≠ []
      ∧ record_names_exc recs = .ok rnames := by
  have hscan := get_record_by_name_none hparse
  have hfilter : ((conflict_names cls).filter (fun nm => hasAttr node nm)) ≠ [] := by
    rcases hconf with ⟨nm, hmem, hh⟩
    exact List.ne_nil_of_mem (List.mem_filter.2 ⟨hmem, hh⟩)
  rcases record_names_exc_ok (fun e he => by
    rcases hparse e he with ⟨nm, v, hp, _⟩
    exact ⟨nm, v, hp⟩) with ⟨rnames, hrn, _⟩
  refine ⟨rnames, ?_, hfilter, hrn⟩
  rw [get_data]
  simp only [hrec, hscan, get_records_f, Option.isNone_none, Bool.and_true,
    if_true, Option.getD_some, find_attr_conflicts_error cls node recs rnames hfilter hrn]

/-- Witness for C2: a class Clip with attributes start and end, added to a
node that already has a start attribute and a record of a block named Other. -/
theorem get_data_conflict_aborts_witness :
    ∃ rnames,
      get_data ⟨"Clip".toList, "Clip".toList, [1, 0, 0],
          ["start".toList, "end".toList], []⟩ false
          ⟨["start".toList], some [⟨0, "Other:1.0.0".toList, true⟩]⟩ true =
        (⟨["start".toList], some [⟨0, "Other:1.0.0".toList, true⟩]⟩,
         .error (.conflict
          ((conflict_names ⟨"Clip".toList, "Clip".toList, [1, 0, 0],
              ["start".toList, "end".toList], []⟩).filter
            (fun nm => hasAttr ⟨["start".toList],
              some [⟨0, "Other:1.0.0".toList, true⟩]⟩ nm))
          "Clip".toList rnames))
      ∧ ((conflict_names ⟨"Clip".toList, "Clip".toList, [1, 0, 0],
            ["start".toList, "end".toList], []⟩).filter
          (fun nm => hasAttr ⟨["start".toList],
            some [⟨0, "Other:1.0.0".toList, true⟩]⟩ nm)) ≠ []
      ∧ record_names_exc [⟨0, "Other:1.0.0".toList, true⟩] = .ok rnames :=
  get_data_conflict_aborts
    ⟨"Clip".toList, "Clip".toList, [1, 0, 0], ["start".toList, "end".toList], []⟩
    false ⟨["start".toList], some [⟨0, "Other:1.0.0".toList, true⟩]⟩
    [⟨0, "Other:1.0.0".toList, true⟩] rfl
    (by
      intro e he
      simp only [List.mem_singleton] at he
      subst he
      exact ⟨"Other".toList, [1, 0, 0], by decide, by decide⟩)
    ⟨"start".toList, by decide, by decide⟩

/-! Claim C3: the force_add creation path. -/
/-- C3 (divergence): on a node with a records array, no record of this class
(all elements parse, none matches) and no name conflicts, get_data with
force_add creates the compound attribute tree but then raises TypeError —
`get_version_string` evaluates `cls.version`, the property object — inside
`_add_data_to_records`, so no record element is appended or locked, the
post-create hook never runs and no handle is returned, while the created
attributes are left on the node. -/
theorem get_data_force_add_type_error (cls : DataClass) (auto : Bool)
    (node : PyNode) (recs : List RecordElem)
    (hrec : node.records = some recs)
    (hparse : ∀ e ∈ recs, ∃ nm v, recordParse? e.value = some (nm, v)
      ∧ nm ≠ cls.data_name)
    (hnoconf : ∀ nm ∈ conflict_names cls, hasAttr node nm = false) :
    get_data cls auto node true =
      ({ attrs := node.attrs ++ cls.data_name :: cls.attribute_names,
          records := some recs },
       .error (.typeError "property object is not iterable")) := by
  have hscan := get_record_by_name_none hparse
  have hfilter : ((conflict_names cls).filter (fun nm => hasAttr node nm)) = [] := by
    rw [List.filter_eq_nil_iff]
    intro nm hmem
    simp [hnoconf nm hmem]
  have hok : find_attr_conflicts cls node recs = .ok () := by
    rw [find_attr_conflicts]
    simp only [hfilter, if_pos]
  rw [get_data]
  simp only [hrec, hscan, get_records_f, Option.isNone_none, Bool.and_true,
    if_true, Option.getD_some, hok, create_data, add_data_to_records]
  rfl

/-- Witness for C3: the class Clip added to a node with an empty records
array and no attributes. -/
theorem get_data_force_add_type_error_witness :
    get_data ⟨"Clip".toList, "Clip".toList, [1, 0, 0],
        ["start".toList, "end".toList], []⟩ false ⟨[], some []⟩ true =
      ({ attrs := [] ++ "Clip".toList :: ["start".toList, "end".toList],
          records := some [] },
       .error (.typeError "property object is not iterable")) :=
  get_data_force_add_type_error
    ⟨"Clip".toList, "Clip".toList, [1, 0, 0], ["start".toList, "end".toList], []⟩
    false ⟨[], some []⟩ [] rfl (by intro e he; cases he) (by decide)

/-- Population of a fresh scratch node: get_data with force_add creates the
records array and the attribute tree and then raises the TypeError of
get_version_string, provided none of the class's names is the records name
itself. -/
theorem get_data_fresh (cls : DataClass) (auto : Bool)
    (hdn : cls.data_name ≠ RECORDS_NAME)
    (hattrs : RECORDS_NAME ∉ cls.attribute_names) :
    get_data cls auto ⟨[], none⟩ true =
      (⟨[] ++ cls.data_name :: cls.attribute_names, some []⟩,
       .error (.typeError "property object is not iterable")) := by
  have hfilter : (conflict_names cls).filter
      (fun nm => hasAttr ⟨[], some []⟩ nm) = [] := by
    rw [List.filter_eq_nil_iff]
    intro nm hmem
    rw [conflict_names] at hmem
    rcases List.mem_append.1 hmem with h1 | h1
    · have hmem2 : nm ∈ cls.attribute_names := by
        by_cases hm : ("multi".toList ∈ cls.flags ∨ "m".toList ∈ cls.flags)
        · rw [if_pos hm] at h1; cases h1
        · rw [if_neg hm] at h1; exact h1
      have hne : nm ≠ RECORDS_NAME := fun hh => hattrs (hh ▸ hmem2)
      simp [hasAttr, hne]
    · have h2 : nm = cls.data_name := List.mem_singleton.1 h1
      have hne : nm ≠ RECORDS_NAME := by rw [h2]; exact hdn
      simp [hasAttr, hne]
  have hok : find_attr_conflicts cls ⟨[], some []⟩ [] = .ok () := by
    rw [find_attr_conflicts]
    simp only [hfilter, if_pos]
  rw [get_data]
  simp only [get_records_f, Option.isNone_none, Bool.and_true, if_true,
    Option.getD_some, hok, create_data, add_data_to_records]
  rfl

/-! Claim C1: the error path of update_version. -/
/-- C1 (divergence): update_version never reaches the guarded copy — the
scratch-node population inside create_node raises the TypeError of
get_version_string first — so the versioning exception with the data name
and versions is never raised; the live node and its attribute tree are left
untouched, and the scratch node leaks into the scene. -/
theorem update_version_type_error (cls : DataClass) (copy_ok : Bool)
    (sc : Scene) (old_version : List Nat)
    (hdn : cls.data_name ≠ RECORDS_NAME)
    (hattrs : RECORDS_NAME ∉ cls.attribute_names) :
    (update_version cls copy_ok sc old_version).2
        = .error (.typeError "property object is not iterable")
    ∧ (update_version cls copy_ok sc old_version).1.live = sc.live
    ∧ ∀ dn o n, (update_version cls copy_ok sc old_version).2
        ≠ .error (.versionUpdate dn o n) := by
  have hu : update_version cls copy_ok sc old_version =
      ({ sc with temp := some ⟨[] ++ cls.data_name :: cls.attribute_names, some []⟩ },
       .error (.typeError "property object is not iterable")) := by
    rw [update_version]
    simp only [get_data_fresh cls false hdn hattrs]
  rw [hu]
  refine ⟨rfl, rfl, ?_⟩
  intro dn o n h
  simp at h

/-- Witness for C1 at the class Clip with a stale 0.9.0 record on the live
node. -/
theorem update_version_type_error_witness :
    (update_version ⟨"Clip".toList, "Clip".toList, [1, 0, 0],
        ["start".toList, "end".toList], []⟩ false
        ⟨⟨["start".toList, "end".toList],
          some [⟨0, "Clip:0.9.0".toList, true⟩]⟩, none⟩ [0, 9, 0]).2
      = .error (.typeError "property object is not iterable")
    ∧ (update_version ⟨"Clip".toList, "Clip".toList, [1, 0, 0],
        ["start".toList, "end".toList], []⟩ false
        ⟨⟨["start".toList, "end".toList],
          some [⟨0, "Clip:0.9.0".toList, true⟩]⟩, none⟩ [0, 9, 0]).1.live
      = ⟨["start".toList, "end".toList], some [⟨0, "Clip:0.9.0".toList, true⟩]⟩
    ∧ ∀ dn o n,
      (update_version ⟨"Clip".toList, "Clip".toList, [1, 0, 0],
          ["start".toList, "end".toList], []⟩ false
          ⟨⟨["start".toList, "end".toList],
            some [⟨0, "Clip:0.9.0".toList, true⟩]⟩, none⟩ [0, 9, 0]).2
        ≠ .error (.versionUpdate dn o n) :=
  update_version_type_error
    ⟨"Clip".toList, "Clip".toList, [1, 0, 0], ["start".toList, "end".toList], []⟩
    false
    ⟨⟨["start".toList, "end".toList], some [⟨0, "Clip:0.9.0".toList, true⟩]⟩, none⟩
    [0, 9, 0] (by decide) (by decide)

/-! Claim C4: Utils.find_attribute_conflicts crashes on its first subclass. -/
/-- C4 (divergence): the CamelCase names GetDefaultFlags and
GetAttributeNames that Utils.find_attribute_conflicts calls are not defined
by BaseData, whose API is snake_case, so for every non-empty subclass list
whose classes resolve only such inherited or snake_case names the function
raises AttributeError instead of computing the collision mapping. -/
theorem find_attribute_conflicts_attribute_error :
    ("GetDefaultFlags" ∉ baseDataMethods ∧ "GetAttributeNames" ∉ baseDataMethods)
    ∧ ∀ (classes : List SubclassM) (eoc : Bool),
        classes ≠ [] → (∀ c ∈ classes, "GetDefaultFlags" ∉ c.methods) →
        find_attribute_conflicts classes eoc
          = .error (.attributeError "GetDefaultFlags") := by
  refine ⟨by decide, ?_⟩
  intro classes eoc hne hres
  cases classes with
  | nil => exact absurd rfl hne
  | cons c rest =>
    have hc : "GetDefaultFlags" ∉ c.methods := hres c (List.mem_cons_self _ _)
    rw [find_attribute_conflicts, collect_attrs]
    simp only [if_neg hc]

/-- Witness for C4: a single subclass inheriting exactly the BaseData names. -/
theorem find_attribute_conflicts_attribute_error_witness :
    find_attribute_conflicts [⟨"MyData", baseDataMethods, [], ["start"]⟩] true
      = .error (.attributeError "GetDefaultFlags") :=
  find_attribute_conflicts_attribute_error.2
    [⟨"MyData", baseDataMethods, [], ["start"]⟩] true (by simp)
    (by intro c hc; simp at hc; rw [hc]; decide)

